import Mathlib

/-
Verification of the multi-agent interview system (coordinator, observer,
interviewer, memory manager) against its specification.

Strings are modelled as lists of characters (`Str`); Python float
arithmetic on accuracies is modelled by exact rationals; text produced by
the external Language Generation Service enters every definition as an
oracle argument, so theorems quantify over all possible generated texts.
-/

/-- Strings are modelled as lists of characters, matching Python string
semantics (length in code points, substring search, whitespace split). -/
abbrev Str := List Char

/-- Turn a Lean string literal into the character-list representation. -/
def lit (s : String) : Str := s.toList

/-- Lower-casing of a single character, covering the ASCII and Cyrillic
ranges used by the repository (Python str.lower on this alphabet). -/
def lowerChar (c : Char) : Char :=
  if c.toNat ≥ 65 ∧ c.toNat ≤ 90 then Char.ofNat (c.toNat + 32)
  else if c.toNat ≥ 0x410 ∧ c.toNat ≤ 0x42F then Char.ofNat (c.toNat + 0x20)
  else if c.toNat = 0x401 then Char.ofNat 0x451
  else c

/-- Python str.lower over the modelled alphabet. -/
def pyLower (s : Str) : Str := s.map lowerChar

/-- Whitespace characters recognised by Python str.strip / str.split. -/
def isSpaceChar (c : Char) : Bool :=
  c = ' ' || c = '\t' || c = '\n' || c = '\r' ||
  c.toNat = 11 || c.toNat = 12

/-- Python str.strip: drop whitespace from both ends. -/
def pyStrip (s : Str) : Str :=
  ((s.dropWhile isSpaceChar).reverse.dropWhile isSpaceChar).reverse

/-- Helper for `splitWs`: accumulate the current word (reversed). -/
def splitWsAux : Str → Str → List Str
  | [], acc => if acc.isEmpty then [] else [acc.reverse]
  | c :: rest, acc =>
    if isSpaceChar c then
      if acc.isEmpty then splitWsAux rest []
      else acc.reverse :: splitWsAux rest []
    else splitWsAux rest (c :: acc)

/-- Python str.split() with no argument: split on whitespace runs,
discarding empty pieces. -/
def splitWs (s : Str) : List Str := splitWsAux s []

/-- Python substring containment `needle in hay`. -/
def isSubstr (needle : Str) : Str → Bool
  | [] => needle.isEmpty
  | c :: rest => needle.isPrefixOf (c :: rest) || isSubstr needle rest

/-- Decimal digit test, as in the regex class of digits. -/
def isDigitChar (c : Char) : Bool := c.toNat ≥ 48 ∧ c.toNat ≤ 57

/-- Numeric value of a digit string (the regex group of digits). -/
def digitsToNat (ds : Str) : Nat :=
  ds.foldl (fun acc c => acc * 10 + (c.toNat - 48)) 0

/-- Attempt the score pattern at the current position of the (already
lower-cased) text: the literal tag, then whitespace, then at least one
digit, then the literal slash-ten suffix.  Models a single regex
attempt of the pattern used by the observer. -/
def matchScoreAt (tag : Str) (cs : Str) : Option Nat :=
  if tag.isPrefixOf cs then
    let rest := (cs.drop tag.length).dropWhile isSpaceChar
    let digits := rest.takeWhile isDigitChar
    if digits.isEmpty then none
    else if (lit "/10").isPrefixOf (rest.drop digits.length) then
      some (digitsToNat digits)
    else none
  else none

/-- Leftmost match of the score pattern in the lower-cased text, the
model of re.search with the IGNORECASE flag. -/
def scanScore (tag : Str) : Str → Option Nat
  | [] => none
  | c :: rest =>
    match matchScoreAt tag (c :: rest) with
    | some n => some n
    | none => scanScore tag rest

/-- re.search of the pattern tag + whitespace + digits + "/10" over the
analysis text, case-insensitively. -/
def findScore (tag : Str) (text : Str) : Option Nat :=
  scanScore tag (pyLower text)

example : findScore (lit "точность:") (lit "вот оценка. ТОЧНОСТЬ: 7/10.") = some 7 := by decide
example : findScore (lit "точность:") (lit "оценка отсутствует") = none := by decide
example : findScore (lit "точность:") (lit "ТОЧНОСТЬ: 125/10") = some 125 := by decide

/-! Observer agent (src/agents/observer.py): the answer evaluator. -/

/-- Hedge and filler phrases that mark an answer as non-substantive
(the meaningless-patterns list of the observer). -/
def meaninglessPatterns : List Str :=
  [lit "не знаю", lit "хз", lit "не помню", lit "забыл", lit "тыкаю",
   lit "как бы", lit "типа", lit "ну", lit "эээ", lit "ага", lit "угу",
   lit "да нет", lit "скорее всего", lit "возможно", lit "может быть",
   lit "наверное"]

/-- Does the answer share at least one whitespace-separated token with
the question (both lower-cased)?  Models the set-intersection check. -/
def sharesToken (question answer : Str) : Bool :=
  (splitWs (pyLower question)).any (fun w => (splitWs (pyLower answer)).contains w)

/-- The meaningfulness gate of the observer: an answer is rejected if it
is shorter than 15 characters after stripping, contains a hedge phrase,
or shares no token with the question. -/
def isAnswerMeaningful (answer question : Str) : Bool :=
  if (pyStrip answer).length < 15 then false
  else if meaninglessPatterns.any (fun p => isSubstr p (pyLower answer)) then false
  else if !(sharesToken question answer) then false
  else true

/-- Quality extraction from the analysis text: the score pattern if it
matches (unclamped), otherwise keyword buckets, defaulting to 5. -/
def extractQualityScore (analysis : Str) : Nat :=
  match findScore (lit "точность:") analysis with
  | some n => n
  | none =>
    let lower := pyLower analysis
    if isSubstr (lit "отличн") lower || isSubstr (lit "10/10") lower then 9
    else if isSubstr (lit "хорошо") lower || isSubstr (lit "8/10") lower then 8
    else if isSubstr (lit "удовлетворительно") lower || isSubstr (lit "6/10") lower then 6
    else if isSubstr (lit "плохо") lower || isSubstr (lit "3/10") lower then 3
    else 5

/-- Confidence extraction: the score pattern divided by ten if it
matches (unclamped), otherwise keyword buckets, defaulting to 1/2. -/
def extractConfidenceScore (analysis : Str) : ℚ :=
  match findScore (lit "уверенность:") analysis with
  | some n => (n : ℚ) / 10
  | none =>
    let lower := pyLower analysis
    if isSubstr (lit "высокая уверенность") lower then 8/10
    else if isSubstr (lit "средняя уверенность") lower then 5/10
    else if isSubstr (lit "низкая уверенность") lower then 2/10
    else 5/10

/-- Keyword markers whose presence in the analysis flags fabrication. -/
def hallucinationKeywords : List Str :=
  [lit "галлюцинации: да", lit "ложные утверждения", lit "выдумал",
   lit "ошибочно утверждает", lit "не соответствует фактам"]

/-- Fabrication detection over the analysis text. -/
def detectHallucinations (analysis : Str) : Bool :=
  hallucinationKeywords.any (fun k => isSubstr k (pyLower analysis))

/-- Context the observer reads when phrasing its recommendation. -/
structure ObsCtx where
  position : Str

/-- Recommendation derivation: fixed precedence of rules over the
analysis text, with a role-specific suffix from the declared position. -/
def generateRecommendation (analysis : Str) (ctx : ObsCtx) : Str :=
  let lower := pyLower analysis
  let base :=
    if isSubstr (lit "галлюцинации: да") lower || isSubstr (lit "выдум") lower then
      lit "вежливо указать на неточность и задать уточняющий вопрос по той же теме"
    else if isSubstr (lit "не знаю") lower || isSubstr (lit "не ответил") lower then
      lit "упростить вопрос или перейти к более базовой теме"
    else if isSubstr (lit "отличн") lower || isSubstr (lit "превосходн") lower then
      lit "усложнить следующий вопрос или перейти к более продвинутой теме"
    else if isSubstr (lit "уверенность: низк") lower then
      lit "задать более простой вопрос для восстановления уверенности кандидата"
    else lit "продолжить интервью с текущей темой и сложностью"
  let posLower := pyLower ctx.position
  if isSubstr (lit "backend") posLower then
    base ++ lit " с акцентом на практические задачи бэкенда"
  else if isSubstr (lit "frontend") posLower then
    base ++ lit " с фокусом на интерфейсные технологии"
  else base

/-- Record returned by analyze-and-recommend.  The calledLLM flag
records whether the Language Generation Service was invoked for this
evaluation. -/
structure EvalOut where
  analysis : Str
  recommendation : Str
  hasHallucinations : Bool
  confidence : ℚ
  quality : Nat
  calledLLM : Bool

/-- The observer's analyze-and-recommend: the meaningfulness gate, then
either the fixed short-circuit result (no generation call) or the full
extraction path over the analysis text produced by the generation
service (an oracle argument). -/
def analyzeAndRecommend (question answer : Str) (ctx : ObsCtx)
    (analysisText : Str) : EvalOut :=
  if !(isAnswerMeaningful answer question) then
    { analysis := lit "Ответ не содержит полезной информации или является неполным.",
      recommendation := lit "упростить вопрос или попросить дать более развернутый ответ",
      hasHallucinations := false,
      confidence := 3/10,
      quality := 2,
      calledLLM := false }
  else
    { analysis := analysisText,
      recommendation := generateRecommendation analysisText ctx,
      hasHallucinations := detectHallucinations analysisText,
      confidence := extractConfidenceScore analysisText,
      quality := extractQualityScore analysisText,
      calledLLM := true }

example : isAnswerMeaningful (lit "хз") (lit "что такое python?") = false := by decide
example : isAnswerMeaningful (lit "python это интерпретируемый язык высокого уровня") (lit "расскажите про python") = true := by decide
example : extractQualityScore (lit "ТОЧНОСТЬ: 0/10") = 0 := by decide
example : findScore (lit "уверенность:") (lit "УВЕРЕННОСТЬ: 15/10") = some 15 := by decide
example : extractConfidenceScore (lit "УВЕРЕННОСТЬ: 15/10") = 3/2 := by
  have h : findScore (lit "уверенность:") (lit "УВЕРЕННОСТЬ: 15/10") = some 15 := by decide
  simp [extractConfidenceScore, h]
  norm_num

/-! Interviewer agent (src/agents/interviewer.py): detectors and the
action selection of think. -/

/-- Keywords whose presence flags the candidate's message as
off-topic.  The length check that follows the keyword loop in the
source returns False on both branches, so detection reduces to the
keyword scan. -/
def offtopicKeywords : List Str :=
  [lit "погода", lit "отпуск", lit "зарплата", lit "офис",
   lit "удаленка", lit "команда", lit "начальник"]

/-- Off-topic detection over the lower-cased message. -/
def detectOfftopic (userInput : Str) : Bool :=
  offtopicKeywords.any (fun k => isSubstr k (pyLower userInput))

/-- Interrogative markers for counter-question detection. -/
def questionKeywords : List Str :=
  [lit "?", lit "почему", lit "как", lit "что", lit "когда",
   lit "где", lit "зачем"]

/-- Counter-question detection: a question mark anywhere, or an
interrogative keyword combined with message length above ten. -/
def detectCounterQuestion (userInput : Str) : Bool :=
  if isSubstr (lit "?") userInput then true
  else questionKeywords.any
    (fun k => isSubstr k (pyLower userInput) && decide (userInput.length > 10))

/-- Context fields the interviewer's think reads (the coordinator always
supplies an answer quality, so the local heuristic fallback is not
exercised). -/
structure ThinkCtx where
  observerRecommendation : Str
  isBadAnswer : Bool
  answerQuality : Nat

/-- Quality adjustment applied by think from the observer
recommendation before threshold comparison. -/
def thinkAdjustedQuality (ctx : ThinkCtx) : Nat :=
  let recLower := pyLower ctx.observerRecommendation
  let q1 :=
    if isSubstr (lit "упростить") recLower || ctx.isBadAnswer then
      max 1 (ctx.answerQuality - 3)
    else ctx.answerQuality
  if isSubstr (lit "усложнить") recLower then min 10 (q1 + 2) else q1

/-- Action selection of the interviewer's think: off-topic first, then
counter-question, then the quality thresholds. -/
def thinkAction (userInput : Str) (ctx : ThinkCtx) : Str :=
  if detectOfftopic userInput then lit "handle_offtopic"
  else if detectCounterQuestion userInput then lit "handle_counter_question"
  else
    let q := thinkAdjustedQuality ctx
    let recLower := pyLower ctx.observerRecommendation
    if q < 3 || isSubstr (lit "упростить") recLower then lit "simplify_question"
    else if q > 7 && isSubstr (lit "усложнить") recLower then lit "escalate_difficulty"
    else lit "continue_topic"

/-! Memory manager (src/core/memory_manager.py). -/

/-- Per-topic ledger entry. -/
structure TopicStat where
  asked : Bool
  correctAnswers : Nat
  totalQuestions : Nat
  difficulty : Str
  lastQuestion : Option Str
deriving DecidableEq

/-- Evaluation record stored with a question/answer pair. -/
structure EvalRec where
  quality : Nat
  hasHallucinations : Bool
  recommendation : Str
  isCorrect : Bool
deriving DecidableEq

/-- Stored question/answer pair.  The topic field is always non-null in
storage: it is the explicit argument when truthy, otherwise a topic
derived from the question text. -/
structure QAPair where
  question : Str
  answer : Option Str
  topic : Str
  difficulty : Str
  evaluation : Option EvalRec
deriving DecidableEq

/-- One dialogue-history turn (the fields the decision logic reads). -/
structure DTurn where
  speaker : Str
  message : Str
deriving DecidableEq

/-- The interview memory: dialogue history, topic ledger (insertion
ordered), and stored question/answer pairs. -/
structure Memory where
  dialogue : List DTurn
  topics : List (Str × TopicStat)
  qaPairs : List QAPair
deriving DecidableEq

/-- Lookup in the insertion-ordered topic ledger. -/
def findTopic : List (Str × TopicStat) → Str → Option TopicStat
  | [], _ => none
  | (k, v) :: rest, t => if k = t then some v else findTopic rest t

/-- In-place update (or append) of a ledger entry. -/
def setTopic : List (Str × TopicStat) → Str → TopicStat → List (Str × TopicStat)
  | [], t, v => [(t, v)]
  | (k, w) :: rest, t, v =>
    if k = t then (k, v) :: rest else (k, w) :: setTopic rest t v

/-- Topic-extraction keyword table, in source dictionary order. -/
def commonTopicsTable : List (Str × List Str) :=
  [(lit "python", [lit "python", lit "питон"]),
   (lit "sql", [lit "sql", lit "база данных", lit "database"]),
   (lit "git", [lit "git", lit "версионный"]),
   (lit "алгоритмы", [lit "алгоритм", lit "структур", lit "сортировк", lit "поиск"]),
   (lit "ооп", [lit "ооп", lit "объект", lit "класс", lit "наследование"]),
   (lit "базы данных", [lit "база", lit "sql", lit "таблиц", lit "join"]),
   (lit "веб", [lit "веб", lit "http", lit "api", lit "rest", lit "json"]),
   (lit "тестирование", [lit "тест", lit "unit", lit "pytest", lit "tdd"])]

/-- Derive a topic from free text: first table entry one of whose
keywords occurs in the lower-cased text, else the general fallback. -/
def extractTopic (text : Str) : Str :=
  let lower := pyLower text
  match commonTopicsTable.find? (fun p => p.2.any (fun k => isSubstr k lower)) with
  | some p => p.1
  | none => lit "общие вопросы"

/-- Append a dialogue turn, truncating the history to the most recent
hundred turns (the coordinator builds the memory with that limit). -/
def addDialogueTurn (m : Memory) (speaker message : Str) : Memory :=
  let h := m.dialogue ++ [⟨speaker, message⟩]
  { m with dialogue := if h.length > 100 then h.drop (h.length - 100) else h }

/-- Make a fresh ledger entry for a first question on a topic. -/
def freshTopicStat (question diffic : Str) : TopicStat :=
  { asked := true, correctAnswers := 0, totalQuestions := 1,
    difficulty := diffic, lastQuestion := some (question.take 100) }

/-- Store a question/answer pair.  The ledger is updated only when the
topic argument is truthy (non-null and non-empty); the stored pair's
topic falls back to a topic derived from the question text. -/
def addQaPair (m : Memory) (question : Str) (answer : Option Str)
    (topicArg : Option Str) (diffic : Str) (evaluation : Option EvalRec) : Memory :=
  let storedTopic :=
    match topicArg with
    | some t => if t.isEmpty then extractTopic question else t
    | none => extractTopic question
  let qa : QAPair :=
    { question := question, answer := answer, topic := storedTopic,
      difficulty := diffic, evaluation := evaluation }
  let m1 := { m with qaPairs := m.qaPairs ++ [qa] }
  match topicArg with
  | none => m1
  | some t =>
    if t.isEmpty then m1
    else
      let topics1 :=
        match findTopic m1.topics t with
        | none => setTopic m1.topics t (freshTopicStat question diffic)
        | some st =>
          setTopic m1.topics t { st with totalQuestions := st.totalQuestions + 1, asked := true }
      let topics2 :=
        if (evaluation.map (fun e => e.isCorrect)).getD false then
          match findTopic topics1 t with
          | some st => setTopic topics1 t { st with correctAnswers := st.correctAnswers + 1 }
          | none => topics1
        else topics1
      { m1 with topics := topics2 }

/-- Ledger total for a topic, zero when the topic is absent (the
default of get-topic-performance). -/
def ledgerTotal (m : Memory) (t : Str) : Nat :=
  match findTopic m.topics t with
  | some st => st.totalQuestions
  | none => 0

/-- Number of stored pairs on a topic whose answer is non-null. -/
def countAnswered (m : Memory) (t : Str) : Nat :=
  (m.qaPairs.filter (fun qa => qa.topic = t && qa.answer.isSome)).length

/-- Initialize-context: install a zeroed ledger entry for every
declared technology. -/
def memInitContext (m : Memory) (technologies : List Str) : Memory :=
  let freshEntry : TopicStat :=
    { asked := false, correctAnswers := 0, totalQuestions := 0,
      difficulty := lit "junior", lastQuestion := none }
  { m with topics := technologies.foldl (fun ts tech => setTopic ts tech freshEntry) m.topics }

/-- The empty memory. -/
def memEmpty : Memory := { dialogue := [], topics := [], qaPairs := [] }

example : extractTopic (lit "Расскажите о вашем опыте работы с python.") = lit "python" := by decide
example : thinkAction (lit "а какая зарплата?") ⟨[], false, 9⟩ = lit "handle_offtopic" := by decide
example : detectCounterQuestion (lit "а какая зарплата?") = true := by decide

/-! Coordinator (src/core/coordinator.py): session state and the
per-turn protocol. -/

/-- Running session statistics. -/
structure Stats where
  totalQuestions : Nat
  correctAnswers : Nat
  incorrectAnswers : Nat
  hallucinationsDetected : Nat
deriving DecidableEq

/-- The coordinator's mutable session state. -/
structure CoordState where
  isInterviewActive : Bool
  currentTopic : Option Str
  currentDifficulty : Str
  interviewPhase : Str
  stats : Stats
  memory : Memory
deriving DecidableEq

/-- Multilingual stop/end/feedback keyword set of the coordinator. -/
def endKeywords : List Str :=
  [lit "стоп интервью", lit "завершить", lit "фидбэк", lit "конец",
   lit "stop interview", lit "finish", lit "feedback", lit "завершите"]

/-- Termination test: any end keyword occurs in the lower-cased raw
message. -/
def shouldEndInterview (userResponse : Str) : Bool :=
  endKeywords.any (fun k => isSubstr k (pyLower userResponse))

/-- One-step difficulty escalation, saturating at senior. -/
def increaseDifficulty (d : Str) : Str :=
  if d = lit "junior" then lit "middle"
  else if d = lit "middle" then lit "senior"
  else d

/-- One-step difficulty de-escalation, saturating at junior. -/
def decreaseDifficulty (d : Str) : Str :=
  if d = lit "senior" then lit "middle"
  else if d = lit "middle" then lit "junior"
  else d

/-- Python truthiness of the optional current topic (None and the empty
string are falsy). -/
def topicTruthy : Option Str → Bool
  | none => false
  | some t => !t.isEmpty

/-- Committed difficulty after one turn: quality thresholds apply only
when the current topic is truthy. -/
def updatedDifficulty (s : CoordState) (quality : Nat) : Str :=
  if topicTruthy s.currentTopic then
    if quality ≥ 8 then increaseDifficulty s.currentDifficulty
    else if quality ≤ 4 then decreaseDifficulty s.currentDifficulty
    else s.currentDifficulty
  else s.currentDifficulty

/-- Phase after one turn, from the new total-question count. -/
def updatedPhase (oldPhase : Str) (newTotal : Nat) : Str :=
  if newTotal ≥ 10 then lit "closing"
  else if newTotal ≥ 5 then lit "deep_dive"
  else oldPhase

/-- Per-topic correct-answer bump applied by the state update when the
answer quality reaches six and the current topic is in the ledger. -/
def bumpTopicCorrect (ts : List (Str × TopicStat)) (cur : Option Str)
    (quality : Nat) : List (Str × TopicStat) :=
  match cur with
  | none => ts
  | some t =>
    if !t.isEmpty && quality ≥ 6 then
      match findTopic ts t with
      | some st => setTopic ts t { st with correctAnswers := st.correctAnswers + 1 }
      | none => ts
    else ts

/-- The observer output the coordinator reads. -/
structure ObsResult where
  answerQuality : Nat
  hasHallucinations : Bool
  recommendation : Str

/-- Most recent interviewer message in the dialogue history, the empty
string when none exists. -/
def lastInterviewerQuestion (m : Memory) : Str :=
  match m.dialogue.reverse.find? (fun turn => turn.speaker = lit "interviewer") with
  | some turn => turn.message
  | none => []

/-- The state produced by one processed turn of an active session: the
candidate turn is appended, the last outstanding question resolved, the
statistics, phase, difficulty and ledger updated, the interviewer reply
appended, the question/answer pair stored, and on termination the
closing system turn added.  The observer result and the interviewer
reply text are oracle arguments. -/
def mkTurnState (s : CoordState) (userResponse : Str) (obs : ObsResult)
    (interviewerReply : Str) : CoordState :=
  let m1 := addDialogueTurn s.memory (lit "candidate") userResponse
  let lastQ := lastInterviewerQuestion m1
  let q := obs.answerQuality
  let newTotal := s.stats.totalQuestions + 1
  let topics1 := bumpTopicCorrect m1.topics s.currentTopic q
  let diffic := updatedDifficulty s q
  let m2 := addDialogueTurn { m1 with topics := topics1 } (lit "interviewer") interviewerReply
  let ev : EvalRec :=
    { quality := q, hasHallucinations := obs.hasHallucinations,
      recommendation := obs.recommendation, isCorrect := q ≥ 6 }
  let m3 :=
    if lastQ.isEmpty then m2
    else addQaPair m2 lastQ (some userResponse) s.currentTopic diffic (some ev)
  let ended := shouldEndInterview userResponse
  let m4 := if ended then addDialogueTurn m3 (lit "system") (lit "Интервью завершено") else m3
  { isInterviewActive := !ended,
    currentTopic := s.currentTopic,
    currentDifficulty := diffic,
    interviewPhase := updatedPhase s.interviewPhase newTotal,
    stats :=
      { totalQuestions := newTotal,
        correctAnswers := s.stats.correctAnswers + (if q ≥ 6 then 1 else 0),
        incorrectAnswers := s.stats.incorrectAnswers + (if q ≥ 6 then 0 else 1),
        hallucinationsDetected := s.stats.hallucinationsDetected + (if obs.hasHallucinations then 1 else 0) },
    memory := m4 }

/-- Process one candidate message.  Returns the new state and the
number of feedback-synthesizer invocations this call makes (one exactly
when termination is detected; the inactive session is a no-op). -/
def processUserResponse (s : CoordState) (userResponse : Str) (obs : ObsResult)
    (interviewerReply : Str) : CoordState × Nat :=
  if s.isInterviewActive then
    (mkTurnState s userResponse obs interviewerReply,
     if shouldEndInterview userResponse then 1 else 0)
  else (s, 0)

/-- The greeting template of the interviewer agent, as instantiated by
the coordinator (agent name fixed at construction). -/
def greetingText (position tech0 : Str) : Str :=
  lit "Привет! Меня зовут Профессиональный Интервьюер. Я буду проводить техническое интервью на позицию "
    ++ position
    ++ lit ".\n\nДавайте начнем. Расскажите, пожалуйста, о вашем опыте работы с "
    ++ tech0 ++ lit "."

/-- The coordinator state right after construction. -/
def coordInit : CoordState :=
  { isInterviewActive := false,
    currentTopic := none,
    currentDifficulty := lit "junior",
    interviewPhase := lit "greeting",
    stats := { totalQuestions := 0, correctAnswers := 0, incorrectAnswers := 0, hallucinationsDetected := 0 },
    memory := memEmpty }

/-- Start an interview: install the technology ledger, activate the
session in the greeting phase, and record the greeting as the first
interviewer turn.  A non-empty technology list is required (the source
indexes the first technology). -/
def startInterview (s : CoordState) (position tech0 : Str) (techRest : List Str) :
    CoordState × Str :=
  let greet := greetingText position tech0
  let m1 := memInitContext s.memory (tech0 :: techRest)
  let m2 := addDialogueTurn m1 (lit "interviewer") greet
  ({ s with isInterviewActive := true, interviewPhase := lit "greeting", memory := m2 }, greet)

/-- Session states reachable through the exposed session protocol: one
start followed by processed turns, with the observer result and all
generated texts ranging over arbitrary values. -/
inductive Reachable : CoordState → Prop where
  | init : Reachable coordInit
  | start (position tech0 : Str) (techRest : List Str) :
      Reachable (startInterview coordInit position tech0 techRest).1
  | turn {s : CoordState} (userResponse : Str) (obs : ObsResult) (interviewerReply : Str) :
      Reachable s → Reachable (processUserResponse s userResponse obs interviewerReply).1

example : shouldEndInterview (lit "stop interview, give feedback") = true := by decide
example : shouldEndInterview (lit "подробный содержательный ответ кандидата") = false := by decide

/-! Feedback synthesis (coordinator generate-feedback). -/

/-- Decimal rendering of a natural number. -/
def natToStr (n : Nat) : Str := (toString n).toList

/-- Decimal rendering of an integer. -/
def intToStr (i : ℤ) : Str := (toString i).toList

/-- Session accuracy: correct over total, zero for an empty session. -/
def accuracyOf (total correct : Nat) : ℚ :=
  if total = 0 then 0 else (correct : ℚ) / (total : ℚ)

/-- Verdict computation of generate-feedback: grade and hiring
recommendation from the accuracy buckets, confidence as the
float-to-int truncation of accuracy times one hundred, capped at 95. -/
def genVerdict (total correct : Nat) : Str × Str × ℤ :=
  let accuracy := accuracyOf total correct
  let gradeRec :=
    if accuracy ≥ 8/10 then (lit "Senior", lit "Strong Hire")
    else if accuracy ≥ 6/10 then (lit "Middle", lit "Hire")
    else if accuracy ≥ 4/10 then (lit "Junior", lit "No Hire")
    else (lit "Trainee", lit "No Hire")
  (gradeRec.1, gradeRec.2, min 95 ⌊accuracy * 100⌋)

/-- The textual summary attached to the verdict. -/
def summaryText (accuracy : ℚ) (grade : Str) : Str :=
  if accuracy ≥ 8/10 then
    lit "Кандидат продемонстрировал отличные технические знания, соответствующие уровню "
      ++ grade ++ lit ". Ответы были точными, развернутыми и демонстрировали глубокое понимание тем. Рекомендуется к найму."
  else if accuracy ≥ 6/10 then
    lit "Кандидат показал хорошие базовые знания на уровне " ++ grade
      ++ lit ". Есть понимание основных концепций, но требуются дополнительные знания в некоторых областях. Может рассматриваться на позицию с менторингом."
  else if accuracy ≥ 4/10 then
    lit "Кандидат находится на уровне " ++ grade
      ++ lit ". Требуется дополнительное обучение и практика. Рекомендуется пройти стажировку или курсы повышения квалификации."
  else
    lit "Кандидат показал низкий уровень знаний. Требуется фундаментальное обучение основам программирования. Не рекомендуется к найму на текущий момент."

/-- A per-topic statistics record as seen by the feedback loops: either
a ledger entry (whose asked field is a boolean) or an entry of the
temporary tally rebuilt from the stored pairs (whose asked field is a
count). -/
inductive StatShape where
  | mem (st : TopicStat)
  | tmp (asked correct : Nat)
deriving DecidableEq

/-- The skip test at the head of the analysis loop: both the asked
field and the total-question count (missing and hence zero for the
temporary shape) are falsy. -/
def statSkip : StatShape → Bool
  | .mem st => !st.asked && decide (st.totalQuestions = 0)
  | .tmp a _ => decide (a = 0)

/-- The denominator the loop computes: Python evaluates the asked field
or-else the total-question count, so a true boolean contributes the
numeric value one. -/
def statDeno : StatShape → Nat
  | .mem st => if st.asked then 1 else st.totalQuestions
  | .tmp a _ => a

/-- The numerator: the correct count of the temporary shape or-else the
ledger's correct-answer count. -/
def statNumer : StatShape → Nat
  | .mem st => st.correctAnswers
  | .tmp _ c => c

/-- Truthiness test used when counting topics asked. -/
def statAskedTruthy : StatShape → Bool
  | .mem st => st.asked || decide (st.totalQuestions > 0)
  | .tmp a _ => decide (a ≠ 0)

/-- Quality of a stored pair with default zero (used when rebuilding
the tally and when picking an example question). -/
def qaQuality0 (qa : QAPair) : Nat :=
  match qa.evaluation with
  | some e => e.quality
  | none => 0

/-- Quality of a stored pair with default five (used when picking a
representative weak answer). -/
def qaQuality5 (qa : QAPair) : Nat :=
  match qa.evaluation with
  | some e => e.quality
  | none => 5

/-- Correctness flag of a stored pair, false when no evaluation. -/
def qaIsCorrect (qa : QAPair) : Bool :=
  match qa.evaluation with
  | some e => e.isCorrect
  | none => false

/-- One step of the temporary per-topic tally: bump the asked count and,
for a good answer, the correct count, keeping first-occurrence order. -/
def bumpTemp : List (Str × Nat × Nat) → Str → Bool → List (Str × Nat × Nat)
  | [], t, good => [(t, 1, if good then 1 else 0)]
  | (k, a, c) :: rest, t, good =>
    if k = t then (k, a + 1, c + (if good then 1 else 0)) :: rest
    else (k, a, c) :: bumpTemp rest t good

/-- The temporary per-topic tally rebuilt from the stored pairs when
the ledger is empty. -/
def tempTopics (qas : List QAPair) : List (Str × Nat × Nat) :=
  qas.foldl (fun acc qa => bumpTemp acc qa.topic (qaIsCorrect qa || decide (qaQuality0 qa ≥ 6))) []

/-- The per-topic statistics list the feedback loops walk. -/
def topicsStatsOf (m : Memory) : List (Str × StatShape) :=
  if m.topics.isEmpty then
    (tempTopics m.qaPairs).map (fun p => (p.1, StatShape.tmp p.2.1 p.2.2))
  else m.topics.map (fun p => (p.1, StatShape.mem p.2))

/-- Confirmed-skill entry. -/
structure SkillEntry where
  topic : Str
  accuracyText : Str
  totalQuestions : Nat
  correctAnswers : Nat
  exampleQuestion : Str

/-- Knowledge-gap entry. -/
structure GapEntry where
  topic : Str
  question : Str
  candidateAnswer : Str
  correctAnswer : Str
  qualityScoreText : Str
  suggestedResources : List Str

/-- Candidate-answer excerpt stored in a gap entry: the truncated text
with an ellipsis when the answer is truthy, a fixed placeholder
otherwise. -/
def gapAnswerText (a : Option Str) : Str :=
  match a with
  | some t => if t.isEmpty then lit "Нет ответа" else t.take 100 ++ lit "..."
  | none => lit "Нет ответа"

/-- Gap entry built from one representative weak pair on a topic.  The
corrective explanation text comes from the generation service
(oracle genCorrect applied to question, answer excerpt and topic). -/
def mkGapEntry (t : Str) (qa : QAPair) (genCorrect : Str → Str → Str → Str) : GapEntry :=
  { topic := t,
    question := qa.question,
    candidateAnswer := gapAnswerText qa.answer,
    correctAnswer := genCorrect qa.question (match qa.answer with | some a => a | none => []) t,
    qualityScoreText := natToStr (qaQuality5 qa) ++ lit "/10",
    suggestedResources :=
      [lit "Документация по " ++ t,
       lit "Практические задания по " ++ t,
       lit "Курс 'Основы " ++ t ++ lit "'"] }

/-- General gap entry emitted by the fallback loop for a low-accuracy
topic when the first loop produced no gaps. -/
def mkGeneralGapEntry (t : Str) (asked correct : Nat) (genRec : Str → Str) : GapEntry :=
  { topic := t,
    question := lit "Общие вопросы по " ++ t,
    candidateAnswer := lit "Правильных ответов: " ++ natToStr correct ++ lit " из " ++ natToStr asked,
    correctAnswer := genRec t,
    qualityScoreText :=
      intToStr (if asked > 0 then ⌊((correct : ℚ) / (asked : ℚ)) * 10⌋ else 0) ++ lit "/10",
    suggestedResources :=
      [lit "Основы " ++ t ++ lit " для начинающих",
       lit "Практикум по " ++ t,
       lit "Разбор типовых задач по " ++ t] }

/-- Confirmed-skill entry for a topic, with one example question whose
quality reached six (default text when none is stored). -/
def mkSkillEntry (t : Str) (asked correct : Nat) (accuracy : ℚ) (qas : List QAPair) : SkillEntry :=
  let exampleQ :=
    match qas.find? (fun qa => qa.topic = t && decide (qaQuality0 qa ≥ 6)) with
    | some qa => qa.question
    | none => lit "Вопросы по " ++ t
  { topic := t,
    accuracyText := intToStr ⌊accuracy * 100⌋ ++ lit "%",
    totalQuestions := asked,
    correctAnswers := correct,
    exampleQuestion := exampleQ }

/-- The main analysis loop over the per-topic statistics: a confirmed
skill when the computed accuracy reaches six tenths, otherwise one gap
entry for the first weak pair on the topic, if any. -/
def analyzeTopics (ts : List (Str × StatShape)) (qas : List QAPair)
    (genCorrect : Str → Str → Str → Str) : List SkillEntry × List GapEntry :=
  ts.foldl
    (fun acc p =>
      let st := p.2
      if statSkip st then acc
      else
        let asked := statDeno st
        if asked = 0 then acc
        else
          let correct := statNumer st
          let accuracy : ℚ := (correct : ℚ) / (asked : ℚ)
          if accuracy ≥ 6/10 then
            (acc.1 ++ [mkSkillEntry p.1 asked correct accuracy qas], acc.2)
          else
            match qas.find? (fun qa => qa.topic = p.1 && decide (qaQuality5 qa < 6)) with
            | some qa => (acc.1, acc.2 ++ [mkGapEntry p.1 qa genCorrect])
            | none => acc)
    ([], [])

/-- The fallback gap loop run when the main loop produced no gaps. -/
def fallbackGaps (ts : List (Str × StatShape)) (genRec : Str → Str) : List GapEntry :=
  ts.foldl
    (fun acc p =>
      let asked := statDeno p.2
      let correct := statNumer p.2
      if asked > 0 ∧ ((correct : ℚ) / (asked : ℚ)) < 6/10 then
        acc ++ [mkGeneralGapEntry p.1 asked correct genRec]
      else acc)
    []

/-- Roadmap entry. -/
structure RoadmapEntry where
  priority : Str
  skill : Str
  action : Str
  estimatedTime : Str
  specificTask : Str
  resources : List Str

/-- Roadmap entry derived from a knowledge gap. -/
def mkRoadmapEntry (gap : GapEntry) : RoadmapEntry :=
  let t := gap.topic
  let lower := pyLower t
  { priority :=
      if isSubstr (lit "python") lower || isSubstr (lit "основ") lower || isSubstr (lit "баз") lower
      then lit "высокий" else lit "средний",
    skill := t,
    action := lit "Изучить основы " ++ t,
    estimatedTime := lit "2-3 недели",
    specificTask := lit "Решить 5 практических задач по " ++ t,
    resources :=
      [lit "Онлайн-курс по " ++ t,
       lit "Документация и руководства",
       lit "Практические упражнения"] }

/-- One entry of the default starter curriculum. -/
def mkBasicRoadmapEntry (idx : Nat) (t : Str) : RoadmapEntry :=
  { priority := if idx = 1 then lit "высокий" else lit "средний",
    skill := t,
    action := lit "Освоить основы " ++ t,
    estimatedTime := lit "3-4 недели",
    specificTask := lit "Пройти практический курс по " ++ t,
    resources :=
      [lit "Бесплатные курсы на Stepik/Coursera",
       lit "Практические задания на LeetCode/HackerRank",
       lit "Документация и книги по теме"] }

/-- The default starter curriculum: the first three basic topics. -/
def defaultRoadmap : List RoadmapEntry :=
  [mkBasicRoadmapEntry 1 (lit "Python"),
   mkBasicRoadmapEntry 2 (lit "алгоритмы"),
   mkBasicRoadmapEntry 3 (lit "базы данных")]

/-- Soft-skill ratings. -/
structure SoftSkills where
  clarity : Str
  honesty : Str
  engagement : Str

/-- Clarity rating: word-count buckets over the candidate turns of the
last ten dialogue entries, averaged. -/
def assessClarity (dialogue : List DTurn) : Str :=
  let scores :=
    ((dialogue.reverse.take 10).reverse.filter (fun t => t.speaker = lit "candidate")).map
      (fun t =>
        let words := (splitWs t.message).length
        if words > 50 then (3 : Nat) else if words > 20 then 2 else 1)
  if scores.isEmpty then lit "Средняя"
  else
    let avg : ℚ := ((scores.foldl (· + ·) 0 : Nat) : ℚ) / (scores.length : ℚ)
    if avg ≥ 5/2 then lit "Высокая"
    else if avg ≥ 3/2 then lit "Средняя"
    else lit "Низкая"

/-- Honesty rating from the hallucination count. -/
def assessHonesty (hallucinations : Nat) : Str :=
  if hallucinations > 2 then lit "Низкая"
  else if hallucinations > 0 then lit "Средняя"
  else lit "Высокая"

/-- Engagement rating from the number of candidate turns containing a
question mark. -/
def assessEngagement (dialogue : List DTurn) : Str :=
  let counter :=
    (dialogue.filter (fun t => t.speaker = lit "candidate" && isSubstr (lit "?") t.message)).length
  if counter ≥ 3 then lit "Высокая"
  else if counter ≥ 1 then lit "Средняя"
  else lit "Низкая"

/-- Verdict block of the final feedback. -/
structure Verdict where
  grade : Str
  hiringRecommendation : Str
  confidenceScore : ℤ
  summary : Str

/-- The final feedback artifact. -/
structure Feedback where
  verdict : Verdict
  confirmedSkills : List SkillEntry
  knowledgeGaps : List GapEntry
  topicsCovered : List Str
  totalTopicsAsked : Nat
  softSkills : SoftSkills
  personalRoadmap : List RoadmapEntry

/-- The knowledge-gap list of generate-feedback: the gaps of the main
analysis loop, or the fallback loop's general gaps when the former is
empty. -/
def knowledgeGapsOf (m : Memory) (genCorrect : Str → Str → Str → Str)
    (genRec : Str → Str) : List GapEntry :=
  let analyzed := analyzeTopics (topicsStatsOf m) m.qaPairs genCorrect
  if analyzed.2.isEmpty then fallbackGaps (topicsStatsOf m) genRec else analyzed.2

/-- The personal roadmap of generate-feedback: one entry per knowledge
gap capped at five, or the default starter curriculum when that list is
empty. -/
def roadmapFromGaps (gaps : List GapEntry) : List RoadmapEntry :=
  let fromGaps := (gaps.take 5).map mkRoadmapEntry
  if fromGaps.isEmpty then defaultRoadmap else fromGaps

/-- Generate the structured feedback from the final session state.  The
generation-service texts for corrective explanations come in as the
oracle arguments genCorrect and genRec (with their exception fallbacks
subsumed by the oracle ranging over all strings). -/
def generateFeedback (s : CoordState) (genCorrect : Str → Str → Str → Str)
    (genRec : Str → Str) : Feedback :=
  let ts := topicsStatsOf s.memory
  let accuracy := accuracyOf s.stats.totalQuestions s.stats.correctAnswers
  let v := genVerdict s.stats.totalQuestions s.stats.correctAnswers
  let analyzed := analyzeTopics ts s.memory.qaPairs genCorrect
  let gaps := knowledgeGapsOf s.memory genCorrect genRec
  let roadmap := roadmapFromGaps gaps
  { verdict :=
      { grade := v.1, hiringRecommendation := v.2.1, confidenceScore := v.2.2,
        summary := summaryText accuracy v.1 },
    confirmedSkills := analyzed.1,
    knowledgeGaps := gaps,
    topicsCovered := ts.map (fun p => p.1),
    totalTopicsAsked := (ts.filter (fun p => statAskedTruthy p.2)).length,
    softSkills :=
      { clarity := assessClarity s.memory.dialogue,
        honesty := assessHonesty s.stats.hallucinationsDetected,
        engagement := assessEngagement s.memory.dialogue },
    personalRoadmap := roadmap }

/-- Modelled from the spec: the confidence score as the specification
words it, the rounding to nearest of accuracy times one hundred, capped
at 95 (the source truncates instead of rounding). -/
def specRoundConfidence (total correct : Nat) : ℤ :=
  min 95 (round (accuracyOf total correct * 100))

/-! Helper lemmas. -/

theorem mkTurnState_active (s : CoordState) (r : Str) (obs : ObsResult) (iv : Str) :
    (mkTurnState s r obs iv).isInterviewActive = !shouldEndInterview r := rfl

theorem mkTurnState_topic (s : CoordState) (r : Str) (obs : ObsResult) (iv : Str) :
    (mkTurnState s r obs iv).currentTopic = s.currentTopic := rfl

theorem mkTurnState_difficulty (s : CoordState) (r : Str) (obs : ObsResult) (iv : Str) :
    (mkTurnState s r obs iv).currentDifficulty = updatedDifficulty s obs.answerQuality := rfl

theorem mkTurnState_phase (s : CoordState) (r : Str) (obs : ObsResult) (iv : Str) :
    (mkTurnState s r obs iv).interviewPhase = updatedPhase s.interviewPhase (s.stats.totalQuestions + 1) := rfl

theorem mkTurnState_total (s : CoordState) (r : Str) (obs : ObsResult) (iv : Str) :
    (mkTurnState s r obs iv).stats.totalQuestions = s.stats.totalQuestions + 1 := rfl

theorem mkTurnState_correct (s : CoordState) (r : Str) (obs : ObsResult) (iv : Str) :
    (mkTurnState s r obs iv).stats.correctAnswers
      = s.stats.correctAnswers + (if obs.answerQuality ≥ 6 then 1 else 0) := rfl

theorem mkTurnState_incorrect (s : CoordState) (r : Str) (obs : ObsResult) (iv : Str) :
    (mkTurnState s r obs iv).stats.incorrectAnswers
      = s.stats.incorrectAnswers + (if obs.answerQuality ≥ 6 then 0 else 1) := rfl

theorem process_active {s : CoordState} (r : Str) (obs : ObsResult) (iv : Str)
    (h : s.isInterviewActive = true) :
    processUserResponse s r obs iv
      = (mkTurnState s r obs iv, if shouldEndInterview r then 1 else 0) := by
  simp [processUserResponse, h]

theorem process_inactive {s : CoordState} (r : Str) (obs : ObsResult) (iv : Str)
    (h : s.isInterviewActive = false) :
    processUserResponse s r obs iv = (s, 0) := by
  simp [processUserResponse, h]

/-! Claim C3. -/

/-- Claim C3: for every question and answer, a stripped length below 15,
a hedge phrase, or zero shared tokens with the question each alone is enough to
make the evaluator short-circuit to quality 2 with the fixed
simplify-or-elaborate recommendation, without calling the generation
service. -/
theorem c3_meaningfulness_gate (question answer : Str) (ctx : ObsCtx) (analysisText : Str)
    (h : (pyStrip answer).length < 15 ∨
         meaninglessPatterns.any (fun p => isSubstr p (pyLower answer)) = true ∨
         sharesToken question answer = false) :
    isAnswerMeaningful answer question = false ∧
    (analyzeAndRecommend question answer ctx analysisText).calledLLM = false ∧
    (analyzeAndRecommend question answer ctx analysisText).quality = 2 ∧
    isSubstr (lit "упростить") (analyzeAndRecommend question answer ctx analysisText).recommendation = true := by
  have hgate : isAnswerMeaningful answer question = false := by
    unfold isAnswerMeaningful
    split_ifs with h1 h2 h3
    · rfl
    · rfl
    · rfl
    · exfalso
      rcases h with h | h | h
      · exact h1 h
      · exact h2 h
      · simp [h] at h3
  refine ⟨hgate, ?_, ?_, ?_⟩
  · simp [analyzeAndRecommend, hgate]
  · simp [analyzeAndRecommend, hgate]
  · simp [analyzeAndRecommend, hgate]
    decide

/-- Witness for C3 at the concrete hedge answer. -/
theorem c3_meaningfulness_gate_witness :
    ((pyStrip (lit "хз")).length < 15 ∨
       meaninglessPatterns.any (fun p => isSubstr p (pyLower (lit "хз"))) = true ∨
       sharesToken (lit "что такое сортировка?") (lit "хз") = false) ∧
    (analyzeAndRecommend (lit "что такое сортировка?") (lit "хз") ⟨[]⟩ (lit "анализ")).quality = 2 ∧
    (analyzeAndRecommend (lit "что такое сортировка?") (lit "хз") ⟨[]⟩ (lit "анализ")).calledLLM = false := by
  have h : (pyStrip (lit "хз")).length < 15 ∨
      meaninglessPatterns.any (fun p => isSubstr p (pyLower (lit "хз"))) = true ∨
      sharesToken (lit "что такое сортировка?") (lit "хз") = false := by
    left; decide
  have hc := c3_meaningfulness_gate (lit "что такое сортировка?") (lit "хз") ⟨[]⟩ (lit "анализ") h
  exact ⟨h, hc.2.2.1, hc.2.1⟩

/-! Claim C10. -/

/-- Claim C10 (amended): an answer containing a question mark with
length above ten is flagged as a counter-question, and — provided no
off-topic keyword is present, since off-topic handling has priority —
the selected action is handle-counter-question regardless of the
quality score. -/
theorem c10_counter_question_amended (userInput : Str) (ctx : ThinkCtx)
    (hq : isSubstr (lit "?") userInput = true)
    (_hl : userInput.length > 10)
    (hoff : detectOfftopic userInput = false) :
    detectCounterQuestion userInput = true ∧
    thinkAction userInput ctx = lit "handle_counter_question" := by
  have hc : detectCounterQuestion userInput = true := by
    unfold detectCounterQuestion
    simp [hq]
  exact ⟨hc, by simp [thinkAction, hoff, hc]⟩

/-- Witness for C10 at a concrete counter-question. -/
theorem c10_counter_question_witness :
    isSubstr (lit "?") (lit "а что такое декоратор?") = true ∧
    (lit "а что такое декоратор?").length > 10 ∧
    detectOfftopic (lit "а что такое декоратор?") = false ∧
    thinkAction (lit "а что такое декоратор?") ⟨[], false, 9⟩ = lit "handle_counter_question" := by
  refine ⟨by decide, by decide, by decide, ?_⟩
  exact (c10_counter_question_amended (lit "а что такое декоратор?") ⟨[], false, 9⟩
    (by decide) (by decide) (by decide)).2

/-- Counterexample to C10 as stated: a message with a question mark and
length above ten that also contains an off-topic keyword is routed to
handle-offtopic, not handle-counter-question. -/
theorem c10_counter_question_counterexample :
    isSubstr (lit "?") (lit "а какая зарплата?") = true ∧
    (lit "а какая зарплата?").length > 10 ∧
    detectCounterQuestion (lit "а какая зарплата?") = true ∧
    thinkAction (lit "а какая зарплата?") ⟨[], false, 9⟩ ≠ lit "handle_counter_question" := by
  refine ⟨by decide, by decide, by decide, by decide⟩

/-! Claim C2. -/

/-- Claim C2 (amended): confidence is always non-negative, and the
bounds one-to-ten for quality and at-most-one for confidence hold on
the short-circuit path and whenever the analysis text lacks the
explicit score pattern; when the pattern matches, the extracted values
are the matched integer and the matched integer over ten, unclamped. -/
theorem c2_score_bounds_amended (question answer analysisText : Str) (ctx : ObsCtx) :
    0 ≤ (analyzeAndRecommend question answer ctx analysisText).confidence ∧
    (isAnswerMeaningful answer question = false →
      (analyzeAndRecommend question answer ctx analysisText).quality = 2 ∧
      (analyzeAndRecommend question answer ctx analysisText).confidence = 3/10) ∧
    (isAnswerMeaningful answer question = true →
      (findScore (lit "точность:") analysisText = none →
        1 ≤ (analyzeAndRecommend question answer ctx analysisText).quality ∧
        (analyzeAndRecommend question answer ctx analysisText).quality ≤ 10) ∧
      (findScore (lit "уверенность:") analysisText = none →
        (analyzeAndRecommend question answer ctx analysisText).confidence ≤ 1) ∧
      (∀ n, findScore (lit "точность:") analysisText = some n →
        (analyzeAndRecommend question answer ctx analysisText).quality = n) ∧
      (∀ n, findScore (lit "уверенность:") analysisText = some n →
        (analyzeAndRecommend question answer ctx analysisText).confidence = (n : ℚ) / 10)) := by
  by_cases hm : isAnswerMeaningful answer question
  · refine ⟨?_, fun hfalse => by simp [hfalse] at hm, fun _ => ⟨?_, ?_, ?_, ?_⟩⟩
    · simp only [analyzeAndRecommend, hm]
      simp only [Bool.not_true, Bool.false_eq_true, if_false]
      unfold extractConfidenceScore
      cases hfs : findScore (lit "уверенность:") analysisText with
      | some n => simp; positivity
      | none => simp; split_ifs <;> norm_num
    · intro hnone
      simp only [analyzeAndRecommend, hm, Bool.not_true, Bool.false_eq_true, if_false]
      unfold extractQualityScore
      rw [hnone]
      dsimp only
      split_ifs <;> omega
    · intro hnone
      simp only [analyzeAndRecommend, hm, Bool.not_true, Bool.false_eq_true, if_false]
      unfold extractConfidenceScore
      rw [hnone]
      dsimp only
      split_ifs <;> norm_num
    · intro n hsome
      simp only [analyzeAndRecommend, hm, Bool.not_true, Bool.false_eq_true, if_false]
      unfold extractQualityScore
      rw [hsome]
    · intro n hsome
      simp only [analyzeAndRecommend, hm, Bool.not_true, Bool.false_eq_true, if_false]
      unfold extractConfidenceScore
      rw [hsome]
  · have hm2 : isAnswerMeaningful answer question = false := by simpa using hm
    refine ⟨?_, fun _ => ⟨?_, ?_⟩, fun htrue => by simp [htrue] at hm⟩
    · simp [analyzeAndRecommend, hm2]
      norm_num
    · simp [analyzeAndRecommend, hm2]
    · simp [analyzeAndRecommend, hm2]

/-- Witness for C2 at a meaningful answer whose analysis has no score
pattern. -/
theorem c2_score_bounds_witness :
    isAnswerMeaningful (lit "python это интерпретируемый язык высокого уровня") (lit "расскажите про python") = true ∧
    findScore (lit "точность:") (lit "ответ верный") = none ∧
    1 ≤ (analyzeAndRecommend (lit "расскажите про python")
          (lit "python это интерпретируемый язык высокого уровня") ⟨[]⟩ (lit "ответ верный")).quality ∧
    (analyzeAndRecommend (lit "расскажите про python")
          (lit "python это интерпретируемый язык высокого уровня") ⟨[]⟩ (lit "ответ верный")).quality ≤ 10 := by
  have hm : isAnswerMeaningful (lit "python это интерпретируемый язык высокого уровня") (lit "расскажите про python") = true := by decide
  have hn : findScore (lit "точность:") (lit "ответ верный") = none := by decide
  have hc := (c2_score_bounds_amended (lit "расскажите про python")
    (lit "python это интерпретируемый язык высокого уровня") (lit "ответ верный") ⟨[]⟩).2.2 hm
  exact ⟨hm, hn, (hc.1 hn).1, (hc.1 hn).2⟩

/-- Counterexample to C2 as stated: an analysis text with explicit
patterns zero-out-of-ten and fifteen-out-of-ten produces a quality of
zero and a confidence of three halves, outside the claimed bounds. -/
theorem c2_score_bounds_counterexample :
    ¬(1 ≤ (analyzeAndRecommend (lit "расскажите про python")
        (lit "python это интерпретируемый язык высокого уровня") ⟨[]⟩
        (lit "ТОЧНОСТЬ: 0/10. УВЕРЕННОСТЬ: 15/10.")).quality) ∧
    ¬((analyzeAndRecommend (lit "расскажите про python")
        (lit "python это интерпретируемый язык высокого уровня") ⟨[]⟩
        (lit "ТОЧНОСТЬ: 0/10. УВЕРЕННОСТЬ: 15/10.")).confidence ≤ 1) := by
  have hm : isAnswerMeaningful (lit "python это интерпретируемый язык высокого уровня") (lit "расскажите про python") = true := by decide
  have hq : findScore (lit "точность:") (lit "ТОЧНОСТЬ: 0/10. УВЕРЕННОСТЬ: 15/10.") = some 0 := by decide
  have hcf : findScore (lit "уверенность:") (lit "ТОЧНОСТЬ: 0/10. УВЕРЕННОСТЬ: 15/10.") = some 15 := by decide
  constructor
  · simp only [analyzeAndRecommend, hm, Bool.not_true, Bool.false_eq_true, if_false]
    unfold extractQualityScore
    rw [hq]
    dsimp only
    omega
  · simp only [analyzeAndRecommend, hm, Bool.not_true, Bool.false_eq_true, if_false]
    unfold extractConfidenceScore
    rw [hcf]
    dsimp only
    norm_num

/-! Claim C5. -/

/-- The phase determined by the total-question count alone. -/
def phaseOfCount (n : Nat) : Str :=
  if n ≥ 10 then lit "closing"
  else if n ≥ 5 then lit "deep_dive"
  else lit "greeting"

/-- Position of a phase in the forward order of the state machine. -/
def phaseIdx (p : Str) : Nat :=
  if p = lit "greeting" then 0
  else if p = lit "technical" then 1
  else if p = lit "deep_dive" then 2
  else if p = lit "closing" then 3
  else if p = lit "ended" then 4
  else 0

theorem updatedPhase_phaseOfCount (n : Nat) :
    updatedPhase (phaseOfCount n) (n + 1) = phaseOfCount (n + 1) := by
  unfold updatedPhase phaseOfCount
  split_ifs <;> first | rfl | omega

theorem phaseIdx_phaseOfCount (n : Nat) :
    phaseIdx (phaseOfCount n) = if n ≥ 10 then 3 else if n ≥ 5 then 2 else 0 := by
  unfold phaseOfCount
  split_ifs <;> decide

theorem reachable_phase_eq {s : CoordState} (h : Reachable s) :
    s.interviewPhase = phaseOfCount s.stats.totalQuestions := by
  induction h with
  | init => rfl
  | start position tech0 techRest => rfl
  | turn userResponse obs interviewerReply hr ih =>
    rename_i st
    cases ha : st.isInterviewActive with
    | false => rw [process_inactive userResponse obs interviewerReply ha]; exact ih
    | true =>
      rw [process_active userResponse obs interviewerReply ha]
      simp only [mkTurnState_phase, mkTurnState_total, ih]
      exact updatedPhase_phaseOfCount st.stats.totalQuestions

/-- Claim C5: the interview phase only takes values of the declared
five-element set, is exactly determined by the count-based rule
(deep-dive from five processed answers, closing from ten, greeting
before), and never moves backwards through the phase order on any
processed turn. -/
theorem c5_phase_state_machine (s : CoordState) (h : Reachable s) :
    (s.interviewPhase = lit "greeting" ∨ s.interviewPhase = lit "technical" ∨
     s.interviewPhase = lit "deep_dive" ∨ s.interviewPhase = lit "closing" ∨
     s.interviewPhase = lit "ended") ∧
    s.interviewPhase = phaseOfCount s.stats.totalQuestions ∧
    (∀ (userResponse : Str) (obs : ObsResult) (interviewerReply : Str),
      phaseIdx s.interviewPhase ≤
        phaseIdx ((processUserResponse s userResponse obs interviewerReply).1.interviewPhase)) := by
  have heq := reachable_phase_eq h
  refine ⟨?_, heq, ?_⟩
  · rw [heq]
    unfold phaseOfCount
    split_ifs <;> simp
  · intro userResponse obs interviewerReply
    cases ha : s.isInterviewActive with
    | false => rw [process_inactive userResponse obs interviewerReply ha]
    | true =>
      rw [process_active userResponse obs interviewerReply ha]
      simp only [mkTurnState_phase, heq, mkTurnState_total]
      rw [updatedPhase_phaseOfCount]
      rw [phaseIdx_phaseOfCount, phaseIdx_phaseOfCount]
      split_ifs <;> omega

/-- Witness for C5 at the freshly constructed session. -/
theorem c5_phase_state_machine_witness :
    coordInit.interviewPhase = phaseOfCount coordInit.stats.totalQuestions ∧
    (coordInit.interviewPhase = lit "greeting" ∨ coordInit.interviewPhase = lit "technical" ∨
     coordInit.interviewPhase = lit "deep_dive" ∨ coordInit.interviewPhase = lit "closing" ∨
     coordInit.interviewPhase = lit "ended") :=
  ⟨(c5_phase_state_machine coordInit Reachable.init).2.1,
   (c5_phase_state_machine coordInit Reachable.init).1⟩

/-! Claim C6. -/

theorem reachable_stats_partition {s : CoordState} (h : Reachable s) :
    s.stats.totalQuestions = s.stats.correctAnswers + s.stats.incorrectAnswers := by
  induction h with
  | init => rfl
  | start position tech0 techRest => rfl
  | turn userResponse obs interviewerReply hr ih =>
    rename_i st
    cases ha : st.isInterviewActive with
    | false => rw [process_inactive userResponse obs interviewerReply ha]; exact ih
    | true =>
      rw [process_active userResponse obs interviewerReply ha]
      simp only [mkTurnState_total, mkTurnState_correct, mkTurnState_incorrect]
      split_ifs <;> omega

/-- Claim C6: after every processed answer the total-question count is
the sum of the correct and incorrect counts; one processed turn of an
active session adds one to the total and one to exactly one of the two
summands, correct exactly when the quality reaches six. -/
theorem c6_stats_invariant (s : CoordState) (h : Reachable s) :
    s.stats.totalQuestions = s.stats.correctAnswers + s.stats.incorrectAnswers ∧
    (∀ (userResponse : Str) (obs : ObsResult) (interviewerReply : Str),
      s.isInterviewActive = true →
      ((processUserResponse s userResponse obs interviewerReply).1.stats.totalQuestions
          = s.stats.totalQuestions + 1) ∧
      (obs.answerQuality ≥ 6 →
        (processUserResponse s userResponse obs interviewerReply).1.stats.correctAnswers
            = s.stats.correctAnswers + 1 ∧
        (processUserResponse s userResponse obs interviewerReply).1.stats.incorrectAnswers
            = s.stats.incorrectAnswers) ∧
      (obs.answerQuality < 6 →
        (processUserResponse s userResponse obs interviewerReply).1.stats.incorrectAnswers
            = s.stats.incorrectAnswers + 1 ∧
        (processUserResponse s userResponse obs interviewerReply).1.stats.correctAnswers
            = s.stats.correctAnswers)) := by
  refine ⟨reachable_stats_partition h, ?_⟩
  intro userResponse obs interviewerReply ha
  rw [process_active userResponse obs interviewerReply ha]
  simp only [mkTurnState_total, mkTurnState_correct, mkTurnState_incorrect]
  refine ⟨by simp, fun hq => ?_, fun hq => ?_⟩
  · rw [if_pos hq, if_pos hq]; omega
  · rw [if_neg (by omega), if_neg (by omega)]; omega

/-- The session state right after a started interview on a single
python technology; used by several witnesses and counterexamples. -/
def startedSession : CoordState :=
  (startInterview coordInit (lit "разработчик") (lit "python") []).1

/-- Witness for C6 at the started session with one processed answer. -/
theorem c6_stats_invariant_witness :
    startedSession.isInterviewActive = true ∧
    (processUserResponse startedSession (lit "я изучал основы языка") ⟨7, false, []⟩
        (lit "расскажите подробнее")).1.stats.totalQuestions
      = startedSession.stats.totalQuestions + 1 := by
  have ha : startedSession.isInterviewActive = true := by decide
  exact ⟨ha, ((c6_stats_invariant startedSession
    (Reachable.start (lit "разработчик") (lit "python") [])).2
      (lit "я изучал основы языка") ⟨7, false, []⟩ (lit "расскажите подробнее") ha).1⟩

/-! Claim C4. -/

theorem increase_mem {d : Str}
    (h : d = lit "junior" ∨ d = lit "middle" ∨ d = lit "senior") :
    increaseDifficulty d = lit "junior" ∨ increaseDifficulty d = lit "middle" ∨
      increaseDifficulty d = lit "senior" := by
  rcases h with h | h | h <;> subst h <;> decide

theorem decrease_mem {d : Str}
    (h : d = lit "junior" ∨ d = lit "middle" ∨ d = lit "senior") :
    decreaseDifficulty d = lit "junior" ∨ decreaseDifficulty d = lit "middle" ∨
      decreaseDifficulty d = lit "senior" := by
  rcases h with h | h | h <;> subst h <;> decide

theorem updatedDifficulty_cases (s : CoordState) (q : Nat) :
    updatedDifficulty s q = s.currentDifficulty ∨
    updatedDifficulty s q = increaseDifficulty s.currentDifficulty ∨
    updatedDifficulty s q = decreaseDifficulty s.currentDifficulty := by
  unfold updatedDifficulty
  split_ifs <;> tauto

theorem reachable_difficulty_mem {s : CoordState} (h : Reachable s) :
    s.currentDifficulty = lit "junior" ∨ s.currentDifficulty = lit "middle" ∨
      s.currentDifficulty = lit "senior" := by
  induction h with
  | init => left; rfl
  | start position tech0 techRest => left; rfl
  | turn userResponse obs interviewerReply hr ih =>
    rename_i st
    cases ha : st.isInterviewActive with
    | false => rw [process_inactive userResponse obs interviewerReply ha]; exact ih
    | true =>
      rw [process_active userResponse obs interviewerReply ha]
      simp only [mkTurnState_difficulty]
      rcases updatedDifficulty_cases st obs.answerQuality with hc | hc | hc <;> rw [hc]
      · exact ih
      · exact increase_mem ih
      · exact decrease_mem ih

/-- One turn of an active session with a perfect (quality nine) answer
on a fixed neutral candidate message; used to state the consecutive
perfect-answer scenario. -/
def perfectStep (s : CoordState) : CoordState :=
  (processUserResponse s (lit "подробный содержательный ответ кандидата")
    ⟨9, false, []⟩ (lit "следующий вопрос готов")).1

theorem perfectStep_active_props (s : CoordState)
    (ha : s.isInterviewActive = true) (ht : topicTruthy s.currentTopic = true) :
    (perfectStep s).isInterviewActive = true ∧
    (perfectStep s).currentTopic = s.currentTopic ∧
    (perfectStep s).currentDifficulty = increaseDifficulty s.currentDifficulty := by
  have hse : shouldEndInterview (lit "подробный содержательный ответ кандидата") = false := by decide
  unfold perfectStep
  rw [process_active _ _ _ ha]
  refine ⟨?_, mkTurnState_topic s _ _ _, ?_⟩
  · rw [mkTurnState_active, hse]; rfl
  · rw [mkTurnState_difficulty]
    unfold updatedDifficulty
    rw [ht]
    simp

theorem perfectStep_iter (n : Nat) (s : CoordState)
    (ha : s.isInterviewActive = true) (ht : topicTruthy s.currentTopic = true) :
    (perfectStep^[n] s).isInterviewActive = true ∧
    (perfectStep^[n] s).currentTopic = s.currentTopic ∧
    (perfectStep^[n] s).currentDifficulty = increaseDifficulty^[n] s.currentDifficulty := by
  induction n with
  | zero => exact ⟨ha, rfl, rfl⟩
  | succ k ih =>
    have hs := perfectStep_active_props (perfectStep^[k] s) ih.1
      (by rw [ih.2.1]; exact ht)
    rw [Function.iterate_succ_apply', Function.iterate_succ_apply']
    exact ⟨hs.1, by rw [hs.2.1]; exact ih.2.1, by rw [hs.2.2, ih.2.2]⟩

theorem increase_iter_ten {d : Str}
    (h : d = lit "junior" ∨ d = lit "middle" ∨ d = lit "senior") :
    increaseDifficulty^[10] d = lit "senior" := by
  rcases h with h | h | h <;> subst h <;> decide

/-- Claim C4 (amended): every reachable committed difficulty is junior,
middle or senior; one processed turn moves it by at most one level, with
escalation saturating at senior and de-escalation at junior; and from
any active state whose current topic is truthy — a condition the
shipped coordinator never establishes, since it never assigns its
current topic — ten consecutive quality-nine answers drive the
difficulty to senior, where a further perfect answer leaves it. -/
theorem c4_difficulty_machine (s : CoordState) (h : Reachable s) :
    (s.currentDifficulty = lit "junior" ∨ s.currentDifficulty = lit "middle" ∨
      s.currentDifficulty = lit "senior") ∧
    (∀ (userResponse : Str) (obs : ObsResult) (interviewerReply : Str),
      (processUserResponse s userResponse obs interviewerReply).1.currentDifficulty
          = s.currentDifficulty ∨
      (processUserResponse s userResponse obs interviewerReply).1.currentDifficulty
          = increaseDifficulty s.currentDifficulty ∨
      (processUserResponse s userResponse obs interviewerReply).1.currentDifficulty
          = decreaseDifficulty s.currentDifficulty) ∧
    increaseDifficulty (lit "senior") = lit "senior" ∧
    decreaseDifficulty (lit "junior") = lit "junior" ∧
    (∀ s2 : CoordState, s2.isInterviewActive = true →
      topicTruthy s2.currentTopic = true →
      (s2.currentDifficulty = lit "junior" ∨ s2.currentDifficulty = lit "middle" ∨
        s2.currentDifficulty = lit "senior") →
      (perfectStep^[10] s2).currentDifficulty = lit "senior" ∧
      (perfectStep (perfectStep^[10] s2)).currentDifficulty = lit "senior") := by
  refine ⟨reachable_difficulty_mem h, ?_, by decide, by decide, ?_⟩
  · intro userResponse obs interviewerReply
    cases ha : s.isInterviewActive with
    | false => rw [process_inactive userResponse obs interviewerReply ha]; left; rfl
    | true =>
      rw [process_active userResponse obs interviewerReply ha]
      simp only [mkTurnState_difficulty]
      exact updatedDifficulty_cases s obs.answerQuality
  · intro s2 ha ht hmem
    have hten := perfectStep_iter 10 s2 ha ht
    have hfinal : (perfectStep^[10] s2).currentDifficulty = lit "senior" := by
      rw [hten.2.2]; exact increase_iter_ten hmem
    have hnext := perfectStep_active_props (perfectStep^[10] s2) hten.1
      (by rw [hten.2.1]; exact ht)
    exact ⟨hfinal, by rw [hnext.2.2, hfinal]; decide⟩

/-- Witness for C4: a concrete active state with a truthy topic reaches
senior after ten perfect answers, and the reachable started session has
an in-range difficulty. -/
theorem c4_difficulty_machine_witness :
    (startedSession.currentDifficulty = lit "junior" ∨
     startedSession.currentDifficulty = lit "middle" ∨
     startedSession.currentDifficulty = lit "senior") ∧
    (perfectStep^[10] { startedSession with currentTopic := some (lit "python") }).currentDifficulty
      = lit "senior" := by
  refine ⟨(c4_difficulty_machine startedSession
    (Reachable.start (lit "разработчик") (lit "python") [])).1, ?_⟩
  exact ((c4_difficulty_machine startedSession
      (Reachable.start (lit "разработчик") (lit "python") [])).2.2.2.2
    { startedSession with currentTopic := some (lit "python") }
    (by decide) (by decide) (by decide)).1

theorem perfectStep_none_topic (s : CoordState) (ht : s.currentTopic = none) :
    (perfectStep s).currentTopic = none ∧
    (perfectStep s).currentDifficulty = s.currentDifficulty := by
  unfold perfectStep
  cases ha : s.isInterviewActive with
  | false => rw [process_inactive _ _ _ ha]; exact ⟨ht, rfl⟩
  | true =>
    rw [process_active _ _ _ ha]
    refine ⟨by rw [mkTurnState_topic]; exact ht, ?_⟩
    rw [mkTurnState_difficulty]
    unfold updatedDifficulty
    rw [ht]
    rfl

theorem perfectStep_none_topic_iter (n : Nat) (s : CoordState) (ht : s.currentTopic = none) :
    (perfectStep^[n] s).currentTopic = none ∧
    (perfectStep^[n] s).currentDifficulty = s.currentDifficulty := by
  induction n with
  | zero => exact ⟨ht, rfl⟩
  | succ k ih =>
    have hs := perfectStep_none_topic (perfectStep^[k] s) ih.1
    rw [Function.iterate_succ_apply']
    exact ⟨hs.1, by rw [hs.2, ih.2]⟩

/-- Counterexample to C4 as stated: in an actually reachable session
(started, then ten consecutive quality-nine answers) the difficulty
remains junior and never reaches senior, because the coordinator's
difficulty update is gated on a current topic it never assigns. -/
theorem c4_difficulty_machine_counterexample :
    Reachable (perfectStep^[10] startedSession) ∧
    (perfectStep^[10] startedSession).currentDifficulty = lit "junior" ∧
    lit "junior" ≠ lit "senior" := by
  refine ⟨?_, ?_, by decide⟩
  · have hiter : ∀ n, Reachable (perfectStep^[n] startedSession) := by
      intro n
      induction n with
      | zero => exact Reachable.start (lit "разработчик") (lit "python") []
      | succ k ih =>
        rw [Function.iterate_succ_apply']
        exact Reachable.turn _ _ _ ih
    exact hiter 10
  · have h0 : startedSession.currentTopic = none := by decide
    rw [(perfectStep_none_topic_iter 10 startedSession h0).2]
    decide

/-! Claim C1. -/

/-- Claim C1 (amended): when the raw candidate message contains one of
the multilingual end keywords (case-insensitively), the turn is still
fully processed first — the statistics are updated — and only then is
the session deactivated, with the feedback synthesizer invoked exactly
once for that call; the phase field is not involved (it is never set to
an ended value).  When no keyword is present, the session stays active
and no feedback is generated. -/
theorem c1_termination_amended (s : CoordState) (userResponse interviewerReply : Str)
    (obs : ObsResult) (ha : s.isInterviewActive = true) :
    (shouldEndInterview userResponse = true →
      (processUserResponse s userResponse obs interviewerReply).2 = 1 ∧
      (processUserResponse s userResponse obs interviewerReply).1.isInterviewActive = false ∧
      (processUserResponse s userResponse obs interviewerReply).1.stats.totalQuestions
        = s.stats.totalQuestions + 1) ∧
    (shouldEndInterview userResponse = false →
      (processUserResponse s userResponse obs interviewerReply).2 = 0 ∧
      (processUserResponse s userResponse obs interviewerReply).1.isInterviewActive = true) := by
  rw [process_active userResponse obs interviewerReply ha]
  constructor
  · intro hend
    refine ⟨by rw [hend]; rfl, ?_, mkTurnState_total s userResponse obs interviewerReply⟩
    rw [mkTurnState_active, hend]
    rfl
  · intro hend
    refine ⟨by rw [hend]; rfl, ?_⟩
    rw [mkTurnState_active, hend]
    rfl

/-- Witness for C1 at the scenario message of the specification. -/
theorem c1_termination_witness :
    shouldEndInterview (lit "stop interview, give feedback") = true ∧
    (processUserResponse startedSession (lit "stop interview, give feedback")
        ⟨5, false, []⟩ (lit "спасибо за интервью")).2 = 1 ∧
    (processUserResponse startedSession (lit "stop interview, give feedback")
        ⟨5, false, []⟩ (lit "спасибо за интервью")).1.isInterviewActive = false := by
  have hend : shouldEndInterview (lit "stop interview, give feedback") = true := by decide
  have hc := (c1_termination_amended startedSession (lit "stop interview, give feedback")
    (lit "спасибо за интервью") ⟨5, false, []⟩ (by decide)).1 hend
  exact ⟨hend, hc.1, hc.2.1⟩

/-- Counterexample to C1 as stated: on the scenario message the session
ends, yet the phase field remains greeting rather than transitioning to
ended, and the turn was fully processed (the statistics grew) before
the termination check rather than the check preceding all processing. -/
theorem c1_termination_counterexample :
    Reachable (processUserResponse startedSession (lit "stop interview, give feedback")
        ⟨5, false, []⟩ (lit "спасибо за интервью")).1 ∧
    shouldEndInterview (lit "stop interview, give feedback") = true ∧
    (processUserResponse startedSession (lit "stop interview, give feedback")
        ⟨5, false, []⟩ (lit "спасибо за интервью")).1.interviewPhase = lit "greeting" ∧
    lit "greeting" ≠ lit "ended" ∧
    (processUserResponse startedSession (lit "stop interview, give feedback")
        ⟨5, false, []⟩ (lit "спасибо за интервью")).1.stats.totalQuestions = 1 := by
  refine ⟨Reachable.turn _ _ _ (Reachable.start (lit "разработчик") (lit "python") []),
    by decide, by decide, by decide, by decide⟩

/-! Claim C7. -/

theorem findTopic_setTopic_self (ts : List (Str × TopicStat)) (t : Str) (v : TopicStat) :
    findTopic (setTopic ts t v) t = some v := by
  induction ts with
  | nil => simp [setTopic, findTopic]
  | cons p rest ih =>
    obtain ⟨k, w⟩ := p
    by_cases hk : k = t
    · subst hk
      simp [setTopic, findTopic]
    · simp only [setTopic, if_neg hk, findTopic]
      exact ih

theorem findTopic_setTopic_ne (ts : List (Str × TopicStat)) {u t : Str} (v : TopicStat)
    (h : u ≠ t) : findTopic (setTopic ts t v) u = findTopic ts u := by
  induction ts with
  | nil =>
    simp only [setTopic, findTopic]
    rw [if_neg (Ne.symm h)]
  | cons p rest ih =>
    obtain ⟨k, w⟩ := p
    by_cases hk : k = t
    · subst hk
      simp only [setTopic, if_pos rfl, findTopic]
      rw [if_neg (Ne.symm h), if_neg (Ne.symm h)]
    · simp only [setTopic, if_neg hk, findTopic]
      by_cases hp : k = u
      · rw [if_pos hp, if_pos hp]
      · rw [if_neg hp, if_neg hp]
        exact ih

theorem addQaPair_qaPairs_explicit (m : Memory) (q : Str) (a : Option Str) (d : Str)
    (e : Option EvalRec) {t0 : Str} (ht : t0.isEmpty = false) :
    (addQaPair m q a (some t0) d e).qaPairs
      = m.qaPairs ++ [{ question := q, answer := a, topic := t0, difficulty := d, evaluation := e }] := by
  unfold addQaPair
  simp [ht]

theorem addQaPair_ledger_self (m : Memory) (q : Str) (a : Option Str) (d : Str)
    (e : Option EvalRec) {t0 : Str} (ht : t0.isEmpty = false) :
    ledgerTotal (addQaPair m q a (some t0) d e) t0 = ledgerTotal m t0 + 1 := by
  unfold addQaPair
  simp only [ht, Bool.false_eq_true, if_false]
  unfold ledgerTotal
  dsimp only
  cases hf : findTopic m.topics t0 with
  | none =>
    cases hb : (e.map (fun ev => ev.isCorrect)).getD false with
    | false =>
      simp [hb, findTopic_setTopic_self, freshTopicStat]
    | true =>
      simp [hb, findTopic_setTopic_self, freshTopicStat]
  | some st =>
    cases hb : (e.map (fun ev => ev.isCorrect)).getD false with
    | false =>
      simp [hb, findTopic_setTopic_self]
    | true =>
      simp [hb, findTopic_setTopic_self]

theorem addQaPair_ledger_ne (m : Memory) (q : Str) (a : Option Str) (d : Str)
    (e : Option EvalRec) {t0 u : Str} (ht : t0.isEmpty = false) (hu : u ≠ t0) :
    ledgerTotal (addQaPair m q a (some t0) d e) u = ledgerTotal m u := by
  unfold addQaPair
  simp only [ht, Bool.false_eq_true, if_false]
  unfold ledgerTotal
  dsimp only
  cases hf : findTopic m.topics t0 with
  | none =>
    cases hb : (e.map (fun ev => ev.isCorrect)).getD false with
    | false =>
      simp only [hb, Bool.false_eq_true, if_false]
      rw [findTopic_setTopic_ne _ _ hu]
    | true =>
      simp only [hb, if_true, findTopic_setTopic_self]
      rw [findTopic_setTopic_ne _ _ hu, findTopic_setTopic_ne _ _ hu]
  | some st =>
    cases hb : (e.map (fun ev => ev.isCorrect)).getD false with
    | false =>
      simp only [hb, Bool.false_eq_true, if_false]
      rw [findTopic_setTopic_ne _ _ hu]
    | true =>
      simp only [hb, if_true, findTopic_setTopic_self]
      rw [findTopic_setTopic_ne _ _ hu, findTopic_setTopic_ne _ _ hu]

/-- The per-topic ledger invariant claimed by the specification. -/
def memLedgerInv (m : Memory) : Prop :=
  ∀ t, countAnswered m t ≤ ledgerTotal m t

theorem memLedgerInv_addDialogueTurn {m : Memory} (h : memLedgerInv m)
    (speaker message : Str) : memLedgerInv (addDialogueTurn m speaker message) := by
  intro t
  exact h t

theorem memLedgerInv_addQaPair {m : Memory} (h : memLedgerInv m) (q : Str)
    (a : Option Str) (d : Str) (e : Option EvalRec) {t0 : Str} (ht : t0.isEmpty = false) :
    memLedgerInv (addQaPair m q a (some t0) d e) := by
  intro u
  unfold countAnswered
  rw [addQaPair_qaPairs_explicit m q a d e ht, List.filter_append, List.length_append]
  by_cases hu : u = t0
  · subst hu
    rw [addQaPair_ledger_self m q a d e ht]
    have h1 := h u
    unfold countAnswered at h1
    have h2 : (List.filter (fun qa : QAPair => qa.topic = u && qa.answer.isSome)
        [{ question := q, answer := a, topic := u, difficulty := d, evaluation := e }]).length ≤ 1 :=
      List.length_filter_le _ _
    omega
  · rw [addQaPair_ledger_ne m q a d e ht hu]
    have h1 := h u
    unfold countAnswered at h1
    have h2 : (List.filter (fun qa : QAPair => qa.topic = u && qa.answer.isSome)
        [{ question := q, answer := a, topic := t0, difficulty := d, evaluation := e }]).length = 0 := by
      simp [List.filter, Ne.symm hu]
    omega

/-- Memory operations of one session after context initialization. -/
inductive MemOp where
  | addQa (question : Str) (answer : Option Str) (topic : Option Str)
      (diffic : Str) (evaluation : Option EvalRec)
  | addTurn (speaker message : Str)

/-- Apply one memory operation. -/
def applyMemOp (m : Memory) : MemOp → Memory
  | .addQa q a t d e => addQaPair m q a t d e
  | .addTurn speaker message => addDialogueTurn m speaker message

/-- Run one memory session: context initialization on the declared
technologies followed by the listed operations. -/
def runMemSession (technologies : List Str) (ops : List MemOp) : Memory :=
  ops.foldl applyMemOp (memInitContext memEmpty technologies)

/-- An operation whose stored pair carries an explicitly supplied,
truthy topic. -/
def explicitTopicOp : MemOp → Prop
  | .addQa _ _ topic _ _ => ∃ t, topic = some t ∧ t ≠ []
  | .addTurn _ _ => True

theorem memLedgerInv_foldl (ops : List MemOp) :
    ∀ (m : Memory), memLedgerInv m → (∀ op ∈ ops, explicitTopicOp op) →
      memLedgerInv (ops.foldl applyMemOp m) := by
  induction ops with
  | nil => intro m hm _; exact hm
  | cons op rest ih =>
    intro m hm hops
    rw [List.foldl_cons]
    refine ih (applyMemOp m op) ?_ (fun o ho => hops o (List.mem_cons_of_mem op ho))
    have hop := hops op (List.mem_cons_self op rest)
    cases op with
    | addTurn speaker message => exact memLedgerInv_addDialogueTurn hm speaker message
    | addQa q a t d e =>
      obtain ⟨t1, hsome, hne⟩ := hop
      subst hsome
      have ht : t1.isEmpty = false := by
        cases t1 with
        | nil => exact absurd rfl hne
        | cons c cs => rfl
      exact memLedgerInv_addQaPair hm q a d e ht

/-- Claim C7 (amended): the ledger dominates the count of answered
pairs per topic throughout a session, provided every stored pair was
added with an explicitly supplied truthy topic.  When the topic
argument is null — as it always is in the shipped coordinator, whose
current topic is never assigned — the pair is stored under a topic
derived from the question text while the ledger is left untouched, and
the inequality can fail. -/
theorem c7_ledger_invariant_amended (technologies : List Str) (ops : List MemOp)
    (h : ∀ op ∈ ops, explicitTopicOp op) (t : Str) :
    countAnswered (runMemSession technologies ops) t
      ≤ ledgerTotal (runMemSession technologies ops) t := by
  have hbase : memLedgerInv (memInitContext memEmpty technologies) := by
    intro u
    have hz : countAnswered (memInitContext memEmpty technologies) u = 0 := rfl
    omega
  exact memLedgerInv_foldl ops (memInitContext memEmpty technologies) hbase h t

/-- Witness for C7 on a one-question session with an explicit topic. -/
theorem c7_ledger_invariant_witness :
    countAnswered (runMemSession [lit "python"]
        [MemOp.addQa (lit "что такое списки в python?") (some (lit "это изменяемые массивы"))
          (some (lit "python")) (lit "junior") none]) (lit "python") = 1 ∧
    ledgerTotal (runMemSession [lit "python"]
        [MemOp.addQa (lit "что такое списки в python?") (some (lit "это изменяемые массивы"))
          (some (lit "python")) (lit "junior") none]) (lit "python") = 1 ∧
    countAnswered (runMemSession [lit "python"]
        [MemOp.addQa (lit "что такое списки в python?") (some (lit "это изменяемые массивы"))
          (some (lit "python")) (lit "junior") none]) (lit "python")
      ≤ ledgerTotal (runMemSession [lit "python"]
        [MemOp.addQa (lit "что такое списки в python?") (some (lit "это изменяемые массивы"))
          (some (lit "python")) (lit "junior") none]) (lit "python") := by
  refine ⟨by decide, by decide, ?_⟩
  refine c7_ledger_invariant_amended [lit "python"] _ ?_ (lit "python")
  intro op hop
  simp only [List.mem_singleton] at hop
  subst hop
  exact ⟨lit "python", rfl, by decide⟩

/-- Counterexample to C7 as stated: one processed turn of a reachable
session stores an answered pair under the derived topic python while
the python ledger entry stays at zero questions. -/
theorem c7_ledger_invariant_counterexample :
    Reachable (processUserResponse startedSession (lit "я работал с джангой пять лет")
        ⟨7, false, []⟩ (lit "расскажите о ваших проектах")).1 ∧
    ledgerTotal (processUserResponse startedSession (lit "я работал с джангой пять лет")
        ⟨7, false, []⟩ (lit "расскажите о ваших проектах")).1.memory (lit "python") = 0 ∧
    countAnswered (processUserResponse startedSession (lit "я работал с джангой пять лет")
        ⟨7, false, []⟩ (lit "расскажите о ваших проектах")).1.memory (lit "python") = 1 := by
  refine ⟨Reachable.turn _ _ _ (Reachable.start (lit "разработчик") (lit "python") []),
    by decide, by decide⟩

/-! Claim C8. -/

theorem generateFeedback_verdict_eq (s : CoordState) (gc : Str → Str → Str → Str)
    (gr : Str → Str) :
    (generateFeedback s gc gr).verdict.grade
        = (genVerdict s.stats.totalQuestions s.stats.correctAnswers).1 ∧
    (generateFeedback s gc gr).verdict.hiringRecommendation
        = (genVerdict s.stats.totalQuestions s.stats.correctAnswers).2.1 ∧
    (generateFeedback s gc gr).verdict.confidenceScore
        = (genVerdict s.stats.totalQuestions s.stats.correctAnswers).2.2 :=
  ⟨rfl, rfl, rfl⟩

theorem genVerdict_characterization (total correct : Nat) :
    (accuracyOf total correct ≥ 8/10 →
      (genVerdict total correct).1 = lit "Senior" ∧
      (genVerdict total correct).2.1 = lit "Strong Hire") ∧
    (6/10 ≤ accuracyOf total correct ∧ accuracyOf total correct < 8/10 →
      (genVerdict total correct).1 = lit "Middle" ∧
      (genVerdict total correct).2.1 = lit "Hire") ∧
    (4/10 ≤ accuracyOf total correct ∧ accuracyOf total correct < 6/10 →
      (genVerdict total correct).1 = lit "Junior" ∧
      (genVerdict total correct).2.1 = lit "No Hire") ∧
    (accuracyOf total correct < 4/10 →
      (genVerdict total correct).1 = lit "Trainee" ∧
      (genVerdict total correct).2.1 = lit "No Hire") ∧
    (genVerdict total correct).2.2 = min 95 ⌊accuracyOf total correct * 100⌋ := by
  refine ⟨fun h => ?_, fun h => ?_, fun h => ?_, fun h => ?_, rfl⟩
  · simp only [genVerdict]
    rw [if_pos h]
    exact ⟨rfl, rfl⟩
  · simp only [genVerdict]
    rw [if_neg (by push_neg; linarith [h.2]), if_pos h.1]
    exact ⟨rfl, rfl⟩
  · simp only [genVerdict]
    rw [if_neg (by push_neg; linarith [h.2]), if_neg (by push_neg; linarith [h.2]), if_pos h.1]
    exact ⟨rfl, rfl⟩
  · simp only [genVerdict]
    rw [if_neg (by push_neg; linarith [h]), if_neg (by push_neg; linarith [h]),
      if_neg (by push_neg; linarith [h])]
    exact ⟨rfl, rfl⟩

/-- Claim C8 (amended): the verdict is a deterministic function of the
session accuracy with the claimed grade and hiring buckets, but the
confidence score is min(95, floor(accuracy times 100)) — the source
truncates with int() — rather than min(95, round(accuracy times 100)). -/
theorem c8_verdict_buckets_amended (s : CoordState) (gc : Str → Str → Str → Str)
    (gr : Str → Str) :
    (accuracyOf s.stats.totalQuestions s.stats.correctAnswers ≥ 8/10 →
      (generateFeedback s gc gr).verdict.grade = lit "Senior" ∧
      (generateFeedback s gc gr).verdict.hiringRecommendation = lit "Strong Hire") ∧
    (6/10 ≤ accuracyOf s.stats.totalQuestions s.stats.correctAnswers ∧
        accuracyOf s.stats.totalQuestions s.stats.correctAnswers < 8/10 →
      (generateFeedback s gc gr).verdict.grade = lit "Middle" ∧
      (generateFeedback s gc gr).verdict.hiringRecommendation = lit "Hire") ∧
    (4/10 ≤ accuracyOf s.stats.totalQuestions s.stats.correctAnswers ∧
        accuracyOf s.stats.totalQuestions s.stats.correctAnswers < 6/10 →
      (generateFeedback s gc gr).verdict.grade = lit "Junior" ∧
      (generateFeedback s gc gr).verdict.hiringRecommendation = lit "No Hire") ∧
    (accuracyOf s.stats.totalQuestions s.stats.correctAnswers < 4/10 →
      (generateFeedback s gc gr).verdict.grade = lit "Trainee" ∧
      (generateFeedback s gc gr).verdict.hiringRecommendation = lit "No Hire") ∧
    (generateFeedback s gc gr).verdict.confidenceScore
      = min 95 ⌊accuracyOf s.stats.totalQuestions s.stats.correctAnswers * 100⌋ := by
  obtain ⟨hg, hh, hc⟩ := generateFeedback_verdict_eq s gc gr
  have hch := genVerdict_characterization s.stats.totalQuestions s.stats.correctAnswers
  rw [hg, hh, hc]
  exact hch

/-- Witness for C8 at a session with seventeen correct answers out of
twenty. -/
theorem c8_verdict_buckets_witness :
    accuracyOf (20 : Nat) (17 : Nat) ≥ 8/10 ∧
    (generateFeedback { coordInit with
        stats := { totalQuestions := 20, correctAnswers := 17,
                   incorrectAnswers := 3, hallucinationsDetected := 0 } }
      (fun _ _ _ => []) (fun _ => [])).verdict.grade = lit "Senior" := by
  have hacc : accuracyOf (20 : Nat) (17 : Nat) ≥ 8/10 := by
    norm_num [accuracyOf]
  refine ⟨hacc, ?_⟩
  exact ((c8_verdict_buckets_amended { coordInit with
      stats := { totalQuestions := 20, correctAnswers := 17,
                 incorrectAnswers := 3, hallucinationsDetected := 0 } }
    (fun _ _ _ => []) (fun _ => [])).1 hacc).1

/-- Counterexample to C8 as stated: with two correct answers out of
three the source's confidence score is 66 (truncation), while the
specified min(95, round(accuracy times 100)) is 67. -/
theorem c8_confidence_counterexample :
    (generateFeedback { coordInit with
        stats := { totalQuestions := 3, correctAnswers := 2,
                   incorrectAnswers := 1, hallucinationsDetected := 0 } }
      (fun _ _ _ => []) (fun _ => [])).verdict.confidenceScore = 66 ∧
    specRoundConfidence 3 2 = 67 ∧
    (generateFeedback { coordInit with
        stats := { totalQuestions := 3, correctAnswers := 2,
                   incorrectAnswers := 1, hallucinationsDetected := 0 } }
      (fun _ _ _ => []) (fun _ => [])).verdict.confidenceScore ≠ specRoundConfidence 3 2 := by
  have hacc : accuracyOf (3 : Nat) (2 : Nat) = 2/3 := by
    norm_num [accuracyOf]
  have hfloor : (⌊((2 : ℚ)/3) * 100⌋ : ℤ) = 66 := by
    rw [Int.floor_eq_iff]
    norm_num
  have hround : (round (((2 : ℚ)/3) * 100) : ℤ) = 67 := by
    rw [round_eq, Int.floor_eq_iff]
    norm_num
  have h1 : (generateFeedback { coordInit with
      stats := { totalQuestions := 3, correctAnswers := 2,
                 incorrectAnswers := 1, hallucinationsDetected := 0 } }
    (fun _ _ _ => []) (fun _ => [])).verdict.confidenceScore = 66 := by
    rw [(generateFeedback_verdict_eq _ _ _).2.2]
    show min 95 ⌊accuracyOf 3 2 * 100⌋ = 66
    rw [hacc, hfloor]
    norm_num
  have h2 : specRoundConfidence 3 2 = 67 := by
    unfold specRoundConfidence
    rw [hacc, hround]
    norm_num
  exact ⟨h1, h2, by rw [h1, h2]; norm_num⟩

/-! Claim C9. -/

theorem roadmapFromGaps_length (gaps : List GapEntry) :
    1 ≤ (roadmapFromGaps gaps).length ∧ (roadmapFromGaps gaps).length ≤ 5 := by
  unfold roadmapFromGaps
  by_cases hemp : ((gaps.take 5).map mkRoadmapEntry).isEmpty
  · rw [if_pos hemp]
    decide
  · rw [if_neg hemp]
    constructor
    · have hne : (gaps.take 5).map mkRoadmapEntry ≠ [] := by
        intro hnil
        rw [hnil] at hemp
        exact hemp rfl
      have := List.length_pos.mpr hne
      omega
    · rw [List.length_map, List.length_take]
      omega

theorem roadmapFromGaps_of_nil : roadmapFromGaps [] = defaultRoadmap := rfl

/-- Claim C9: the personal roadmap of every generated feedback is
non-empty with at most five entries (derived from the knowledge gaps,
capped at five; the default starter curriculum of three entries when no
gaps exist), and a zero-question session yields the baseline verdict
Trainee, No Hire, zero confidence, no gaps, no confirmed skills and the
default roadmap, with no exception — generation is a total function of
the state. -/
theorem c9_roadmap_and_empty_session (s : CoordState) (gc : Str → Str → Str → Str)
    (gr : Str → Str) :
    1 ≤ (generateFeedback s gc gr).personalRoadmap.length ∧
    (generateFeedback s gc gr).personalRoadmap.length ≤ 5 ∧
    ((generateFeedback s gc gr).knowledgeGaps = [] →
      (generateFeedback s gc gr).personalRoadmap = defaultRoadmap) ∧
    (generateFeedback coordInit gc gr).verdict.grade = lit "Trainee" ∧
    (generateFeedback coordInit gc gr).verdict.hiringRecommendation = lit "No Hire" ∧
    (generateFeedback coordInit gc gr).verdict.confidenceScore = 0 ∧
    (generateFeedback coordInit gc gr).knowledgeGaps = [] ∧
    (generateFeedback coordInit gc gr).confirmedSkills = [] ∧
    (generateFeedback coordInit gc gr).personalRoadmap = defaultRoadmap := by
  have hroad : (generateFeedback s gc gr).personalRoadmap
      = roadmapFromGaps (knowledgeGapsOf s.memory gc gr) := rfl
  have hgaps : (generateFeedback s gc gr).knowledgeGaps
      = knowledgeGapsOf s.memory gc gr := rfl
  have hlen := roadmapFromGaps_length (knowledgeGapsOf s.memory gc gr)
  refine ⟨by rw [hroad]; exact hlen.1, by rw [hroad]; exact hlen.2, ?_, ?_, ?_, ?_, rfl, rfl, rfl⟩
  · intro hnil
    rw [hgaps] at hnil
    rw [hroad, hnil]
    exact roadmapFromGaps_of_nil
  · rw [(generateFeedback_verdict_eq coordInit gc gr).1]
    simp only [genVerdict, coordInit]
    rw [if_neg (by norm_num [accuracyOf]), if_neg (by norm_num [accuracyOf]),
      if_neg (by norm_num [accuracyOf])]
  · rw [(generateFeedback_verdict_eq coordInit gc gr).2.1]
    simp only [genVerdict, coordInit]
    rw [if_neg (by norm_num [accuracyOf]), if_neg (by norm_num [accuracyOf]),
      if_neg (by norm_num [accuracyOf])]
  · rw [(generateFeedback_verdict_eq coordInit gc gr).2.2]
    show min 95 ⌊accuracyOf 0 0 * 100⌋ = 0
    norm_num [accuracyOf]

/-- Witness for C9 discharging the no-gap implication at the empty
session with trivially stubbed generation texts. -/
theorem c9_roadmap_and_empty_session_witness :
    1 ≤ (generateFeedback coordInit (fun _ _ _ => []) (fun _ => [])).personalRoadmap.length ∧
    (generateFeedback coordInit (fun _ _ _ => []) (fun _ => [])).personalRoadmap = defaultRoadmap := by
  have hc := c9_roadmap_and_empty_session coordInit (fun _ _ _ => []) (fun _ => [])
  exact ⟨hc.1, hc.2.2.1 hc.2.2.2.2.2.2.1⟩
